import Mathlib

/-!
Verification of the conversational knowledge-graph server.

The relational store is embedded shallowly: each table is a list of row
records and every store operation, route fragment and processor step is a
pure Lean function translated statement-by-statement from the TypeScript
and SQL sources (src/api/services/graph.ts, conversation-processor.ts,
llm.ts, gmail-sync.ts, routes/chat.ts, routes/graph.ts, and the SQL
migrations).  Timestamps are UNIX seconds modelled as Int; REAL columns
(edge strength, importance) are modelled as Rat.  The only deliberate
abstraction: the random identifier suffixes produced by crypto.randomUUID
and Date.now are replaced by a deterministic fresh counter carried in the
state, which preserves the freshness property the code relies on.
-/

namespace KGraph

/-- Row of the users table (migration 0001 / database/schema.ts). -/
structure UserRow where
  id : String
  consentGlobal : Bool
deriving DecidableEq, Repr

/-- Row of the topics table. -/
structure TopicRow where
  id : String
  name : String
  description : Option String
deriving DecidableEq, Repr

/-- Row of the topic_relations table (graph edges). -/
structure TopicRelationRow where
  id : String
  sourceTopicId : String
  targetTopicId : String
  strength : ℚ
  relationType : String
deriving DecidableEq, Repr

/-- Row of the conversations table, with the columns added by migrations
0003 (processed, is_useful, usefulness_reason) and 0004 (deleted,
deleted_at), plus global_sharing_blocked from database/schema.ts. -/
structure ConversationRow where
  id : String
  userId : String
  summary : Option String
  messageCount : Nat
  createdAt : Int
  updatedAt : Int
  processed : Bool
  isUseful : Option Bool
  usefulnessReason : Option String
  globalSharingBlocked : Bool
  deleted : Bool
  deletedAt : Option Int
deriving DecidableEq, Repr

/-- Row of the messages table. -/
structure MessageRow where
  id : String
  conversationId : String
  role : String
  content : String
  createdAt : Int
deriving DecidableEq, Repr

/-- Row of the insights table. -/
structure InsightRow where
  id : String
  conversationId : String
  userId : String
  content : String
  importanceScore : ℚ
  createdAt : Int
deriving DecidableEq, Repr

/-- Row of the conversation_topics link table. -/
structure ConversationTopicRow where
  conversationId : String
  topicId : String
deriving DecidableEq, Repr

/-- Row of the insight_topics link table. -/
structure InsightTopicRow where
  insightId : String
  topicId : String
deriving DecidableEq, Repr

/-- Row of the global_insights table. -/
structure GlobalInsightRow where
  id : String
  content : String
  topicIds : String
deriving DecidableEq, Repr

/-- Row of the conversation_processing_logs table (migration 0003). -/
structure ProcessingLogRow where
  id : String
  conversationId : String
  userId : String
  processedAt : Int
  isUseful : Bool
  reason : String
  topicsExtracted : List String
  insightsCount : Nat
deriving DecidableEq, Repr

/-- The whole D1 database, plus a deterministic fresh counter standing in
for crypto.randomUUID / Date.now identifier generation. -/
structure DB where
  users : List UserRow
  topics : List TopicRow
  topicRelations : List TopicRelationRow
  conversations : List ConversationRow
  messages : List MessageRow
  insights : List InsightRow
  conversationTopics : List ConversationTopicRow
  insightTopics : List InsightTopicRow
  globalInsights : List GlobalInsightRow
  processingLogs : List ProcessingLogRow
  fresh : Nat
deriving DecidableEq, Repr

/-- The empty database. -/
def emptyDB : DB :=
  { users := [], topics := [], topicRelations := [], conversations := [],
    messages := [], insights := [], conversationTopics := [], insightTopics := [],
    globalInsights := [], processingLogs := [], fresh := 0 }

/- ============ ORDER BY: insertion sort on an Int key ============ -/

/-- Insert an element into a list sorted ascending by an Int key. -/
def insertByKey (key : α → Int) (x : α) : List α → List α
  | [] => [x]
  | y :: ys => if key x ≤ key y then x :: y :: ys else y :: insertByKey key x ys

/-- Sort ascending by an Int key (models SQL ORDER BY key ASC). -/
def sortByKeyAsc (key : α → Int) : List α → List α
  | [] => []
  | x :: xs => insertByKey key x (sortByKeyAsc key xs)

/-- Sort descending by an Int key (models SQL ORDER BY key DESC). -/
def sortByKeyDesc (key : α → Int) (l : List α) : List α :=
  sortByKeyAsc (fun a => -(key a)) l

/- ============ GRAPH STORE (services/graph.ts) ============ -/

/-- Split a character list on whitespace; the first argument accumulates
the current word reversed. -/
def splitOnWs (acc : List Char) : List Char → List (List Char)
  | [] => [acc.reverse]
  | c :: cs =>
      if c.isWhitespace then acc.reverse :: splitOnWs [] cs
      else splitOnWs (c :: acc) cs

/-- Join words with single hyphens. -/
def joinHyphen : List (List Char) → List Char
  | [] => []
  | [w] => w
  | w :: ws => w ++ '-' :: joinHyphen ws

/-- JS name.toLowerCase().trim() with every whitespace run replaced by a
single hyphen, from GraphService.getOrCreateTopic.  Splitting on
whitespace, dropping empty words and joining with hyphens realizes
trim-then-collapse on the character list. -/
def normalizeTopicName (name : String) : String :=
  String.mk (joinHyphen
    ((splitOnWs [] (name.data.map Char.toLower)).filter (fun w => w ≠ [])))

/-- GraphService.getOrCreateUser: return the existing row or insert a new
one; the consent_global column defaults to false (database/schema.ts). -/
def getOrCreateUser (db : DB) (userId : String) : UserRow × DB :=
  match db.users.find? (fun u => u.id == userId) with
  | some existing => (existing, db)
  | none =>
      let u : UserRow := { id := userId, consentGlobal := false }
      (u, { db with users := db.users ++ [u] })

/-- GraphService.getOrCreateTopic: look up by normalized name, else insert
a fresh row carrying the normalized name. -/
def getOrCreateTopic (db : DB) (name : String) : TopicRow × DB :=
  let normalizedName := normalizeTopicName name
  match db.topics.find? (fun t => t.name == normalizedName) with
  | some existing => (existing, db)
  | none =>
      let t : TopicRow := { id := "topic_" ++ toString db.fresh,
                            name := normalizedName, description := none }
      (t, { db with topics := db.topics ++ [t], fresh := db.fresh + 1 })

/-- GraphService.linkTopics: get or create both topics; if a directed
relation already exists, set its strength to min(1, existing + 0.1),
otherwise insert a new relation with the given strength. -/
def linkTopics (db : DB) (topic1Name topic2Name : String) (strength : ℚ) : DB :=
  let p1 := getOrCreateTopic db topic1Name
  let p2 := getOrCreateTopic p1.2 topic2Name
  let db2 := p2.2
  match db2.topicRelations.find? (fun r =>
      r.sourceTopicId == p1.1.id && r.targetTopicId == p2.1.id) with
  | some existing =>
      { db2 with topicRelations := db2.topicRelations.map (fun r =>
          if r.id == existing.id then
            { r with strength := min 1 (existing.strength + 1/10) }
          else r) }
  | none =>
      { db2 with
          topicRelations := db2.topicRelations ++
            [{ id := "rel_" ++ toString db2.fresh, sourceTopicId := p1.1.id,
               targetTopicId := p2.1.id, strength := strength,
               relationType := "related" }],
          fresh := db2.fresh + 1 }

/-- Topic names linked to one conversation (join through
conversation_topics, as in getUserConversations and the summaries query). -/
def conversationTopicNames (db : DB) (conversationId : String) : List String :=
  (db.conversationTopics.filter (fun ct => ct.conversationId == conversationId)).filterMap
    (fun ct => (db.topics.find? (fun t => t.id == ct.topicId)).map (fun t => t.name))

/-- Topic names linked to one insight (join through insight_topics). -/
def insightTopicNames (db : DB) (insightId : String) : List String :=
  (db.insightTopics.filter (fun it => it.insightId == insightId)).filterMap
    (fun it => (db.topics.find? (fun t => t.id == it.topicId)).map (fun t => t.name))

/-- GraphService.getUserConversations: all conversations of the user
ordered by updatedAt descending, limited, each with its topic names.
Note: no filter on the deleted column. -/
def getUserConversations (db : DB) (userId : String) (limit : Nat) :
    List (ConversationRow × List String) :=
  ((sortByKeyDesc (fun c => c.updatedAt)
      (db.conversations.filter (fun c => c.userId == userId))).take limit).map
    (fun conv => (conv, conversationTopicNames db conv.id))

/-- GraphService.getUserActiveConversations: like getUserConversations but
additionally filtering deleted = false. -/
def getUserActiveConversations (db : DB) (userId : String) (limit : Nat) :
    List (ConversationRow × List String) :=
  ((sortByKeyDesc (fun c => c.updatedAt)
      (db.conversations.filter (fun c =>
        c.userId == userId && c.deleted == false))).take limit).map
    (fun conv => (conv, conversationTopicNames db conv.id))

/-- GET /api/chat/history/:userId (routes/chat.ts) delegates to
getUserConversations with the requested limit (default 10). -/
def chatHistoryEndpoint (db : DB) (userId : String) (limit : Nat) :
    List (ConversationRow × List String) :=
  getUserConversations db userId limit

/-- The select stage of GraphService.getGlobalInsights: insights joined to
their conversation, keeping only rows whose conversation has
globalSharingBlocked = false, ordered by createdAt descending, limited. -/
def getGlobalInsightsRows (db : DB) (limit : Nat) : List InsightRow :=
  (sortByKeyDesc (fun i => i.createdAt)
    (db.insights.filter (fun i =>
      db.conversations.any (fun c =>
        c.id == i.conversationId && c.globalSharingBlocked == false)))).take limit

/-- GraphService.getGlobalInsights: the selected rows mapped to
(content, topic names, userId). -/
def getGlobalInsights (db : DB) (limit : Nat) :
    List (String × List String × String) :=
  (getGlobalInsightsRows db limit).map
    (fun i => (i.content, insightTopicNames db i.id, i.userId))

/-- The select stage of GraphService.getGlobalConversationSummaries:
conversations with globalSharingBlocked = false, ordered by updatedAt
descending, limited. -/
def getGlobalConversationSummariesRows (db : DB) (limit : Nat) :
    List ConversationRow :=
  (sortByKeyDesc (fun c => c.updatedAt)
    (db.conversations.filter (fun c => c.globalSharingBlocked == false))).take limit

/-- GraphService.getGlobalConversationSummaries: rows without a summary are
skipped; the rest are mapped to (summary, topic names, userId). -/
def getGlobalConversationSummaries (db : DB) (limit : Nat) :
    List (String × List String × String) :=
  (getGlobalConversationSummariesRows db limit).filterMap (fun conv =>
    match conv.summary with
    | none => none
    | some s => some (s, conversationTopicNames db conv.id, conv.userId))

/- ============ GET /api/graph/global (routes/graph.ts) ============ -/

/-- The raw insights query of GET /api/graph/global: SELECT i.*,
GROUP_CONCAT(t.name) FROM insights i LEFT JOIN ... GROUP BY i.id
ORDER BY i.created_at DESC LIMIT 50.  It has no filter on
global_sharing_blocked. -/
def globalRouteInsights (db : DB) : List (InsightRow × List String) :=
  ((sortByKeyDesc (fun i => i.createdAt) db.insights).take 50).map
    (fun i => (i, insightTopicNames db i.id))

/-- The raw conversations query of GET /api/graph/global: SELECT c.*,
GROUP_CONCAT(t.name) FROM conversations c LEFT JOIN ... GROUP BY c.id
ORDER BY c.created_at DESC LIMIT 20.  It has no filter on
global_sharing_blocked (nor on deleted). -/
def globalRouteConversations (db : DB) : List (ConversationRow × List String) :=
  ((sortByKeyDesc (fun c => c.createdAt) db.conversations).take 20).map
    (fun conv => (conv, conversationTopicNames db conv.id))

/- ============ SOFT DELETE (graph.ts + DELETE /api/chat/:id) ============ -/

/-- Return shape of deleteConversationFromUserGraph. -/
structure DeleteResult where
  deleted : Bool
  insightsAnonymized : Nat
deriving DecidableEq, Repr

/-- GraphService.deleteConversationFromUserGraph: (1) look up the
conversation by id and owner; if absent return deleted = false with no
writes; otherwise (2) collect the insights of the conversation, (3) loop over
them rewriting userId to "anonymous" by insight id, (4) delete its
conversation_topics links, (5) mark the conversation deleted with a
deletedAt timestamp. -/
def deleteConversationFromUserGraph (db : DB) (conversationId userId : String)
    (now : Int) : DeleteResult × DB :=
  match db.conversations.find? (fun c =>
      c.id == conversationId && c.userId == userId) with
  | none => ({ deleted := false, insightsAnonymized := 0 }, db)
  | some _ =>
      let convInsights := db.insights.filter (fun i => i.conversationId == conversationId)
      let newInsights := convInsights.foldl (fun rows ins =>
        rows.map (fun i =>
          if i.id == ins.id then { i with userId := "anonymous" } else i)) db.insights
      let db1 := { db with insights := newInsights }
      let newLinks := db1.conversationTopics.filter (fun ct =>
        !(ct.conversationId == conversationId))
      let db2 := { db1 with conversationTopics := newLinks }
      let newConversations := db2.conversations.map (fun c =>
        if c.id == conversationId then
          { c with deleted := true, deletedAt := some now }
        else c)
      let db3 := { db2 with conversations := newConversations }
      ({ deleted := true, insightsAnonymized := convInsights.length }, db3)

/-- Status of the DELETE /api/chat/:conversationId response. -/
inductive DeleteRouteStatus where
  | notFound
  | ok (insightsAnonymized : Nat)
deriving DecidableEq, Repr

/-- DELETE /api/chat/:conversationId (routes/chat.ts): 404 when the service
reports not deleted, success payload otherwise. -/
def deleteConversationRoute (db : DB) (conversationId userId : String)
    (now : Int) : DeleteRouteStatus × DB :=
  let r := deleteConversationFromUserGraph db conversationId userId now
  if r.1.deleted then (DeleteRouteStatus.ok r.1.insightsAnonymized, r.2)
  else (DeleteRouteStatus.notFound, r.2)

/- ============ PII GATE (routes/chat.ts) ============ -/

/-- Result of LLMService.detectPII. -/
structure PIIDetectionResult where
  containsPII : Bool
  piiTypes : List String
  explanation : String
deriving DecidableEq, Repr

/-- The piiDetection payload of the chat response. -/
structure PIIDetection where
  detected : Bool
  types : List String
  explanation : String
deriving DecidableEq, Repr

/-- GraphService.setConversationGlobalSharingBlocked. -/
def setConversationGlobalSharingBlocked (db : DB) (conversationId : String)
    (blocked : Bool) : DB :=
  { db with conversations := db.conversations.map (fun c =>
      if c.id == conversationId then { c with globalSharingBlocked := blocked }
      else c) }

/-- GraphService.isConversationGlobalSharingBlocked: result?.blocked with a
false fallback for a missing conversation. -/
def isConversationGlobalSharingBlocked (db : DB) (conversationId : String) : Bool :=
  match db.conversations.find? (fun c => c.id == conversationId) with
  | some c => c.globalSharingBlocked
  | none => false

/-- Outcome of step 12 of POST /api/chat/send.  setBlockedCalled records
whether setConversationGlobalSharingBlocked was invoked. -/
structure PiiGateResult where
  probeRan : Bool
  piiDetection : Option PIIDetection
  setBlockedCalled : Bool
  db : DB
  isGlobalSharingBlocked : Bool
deriving DecidableEq, Repr

/-- Step 12 of POST /api/chat/send: the probe runs only when the
conversation is not already blocked and the query is not trivial; on a PII
hit the payload is built, and the flag is written only when the client sent
globalSharingConsent = false. -/
def sendPiiGate (db : DB) (convId : String) (isGlobalSharingBlocked0 : Bool)
    (isTrivial : Bool) (probe : PIIDetectionResult)
    (globalSharingConsent : Option Bool) : PiiGateResult :=
  if !isGlobalSharingBlocked0 && !isTrivial then
    if probe.containsPII then
      let payload : PIIDetection :=
        { detected := true, types := probe.piiTypes,
          explanation := probe.explanation }
      if globalSharingConsent == some false then
        { probeRan := true, piiDetection := some payload, setBlockedCalled := true,
          db := setConversationGlobalSharingBlocked db convId true,
          isGlobalSharingBlocked := true }
      else
        { probeRan := true, piiDetection := some payload, setBlockedCalled := false,
          db := db, isGlobalSharingBlocked := isGlobalSharingBlocked0 }
    else
      { probeRan := true, piiDetection := none, setBlockedCalled := false,
        db := db, isGlobalSharingBlocked := isGlobalSharingBlocked0 }
  else
    { probeRan := false, piiDetection := none, setBlockedCalled := false,
      db := db, isGlobalSharingBlocked := isGlobalSharingBlocked0 }

/-- POST /api/chat/pii-consent: writes globalSharingBlocked = true only
when consent is false; returns (db, success, globalSharingBlocked). -/
def piiConsentEndpoint (db : DB) (conversationId : String) (consent : Bool) :
    DB × Bool × Bool :=
  let db1 := if !consent then
      setConversationGlobalSharingBlocked db conversationId true
    else db
  (db1, true, !consent)

/- ============ DEFERRED PROCESSOR: findStaleConversations ============ -/

/-- Stale threshold in seconds (2 minutes), from conversation-processor.ts. -/
def STALE_THRESHOLD_SECONDS : Int := 2 * 60

/-- SELECT id, user_id, updated_at, message_count FROM conversations
WHERE processed = 0 AND updated_at < cutoff AND message_count > 0
ORDER BY updated_at ASC LIMIT 10;  cutoff = now - thresholdSeconds. -/
def staleFilter (cutoffTime : Int) (c : ConversationRow) : Bool :=
  c.processed == false && decide (c.updatedAt < cutoffTime) &&
    decide (c.messageCount > 0)

def findStaleConversations (db : DB) (now : Int) (thresholdSeconds : Int) :
    List ConversationRow :=
  let cutoffTime := now - thresholdSeconds
  (sortByKeyAsc (fun c => c.updatedAt)
    (db.conversations.filter (staleFilter cutoffTime))).take 10

/- ============ LLM ADAPTER (services/llm.ts) ============ -/

/-- Outcome of one remote chat-completions call: the awaited request either
rejects (network or HTTP failure) or yields the completion text. -/
inductive NetOutcome where
  | failure
  | ok (text : String)
deriving DecidableEq, Repr

/-- ConversationAnalysis, from services/llm.ts. -/
structure ConversationAnalysis where
  isUseful : Bool
  reason : String
  topics : List String
  insights : List String
  summary : String
  relatedTopics : List String
  isComplete : Bool
deriving DecidableEq, Repr

/-- QueryClassification, from services/llm.ts. -/
structure QueryClassification where
  isTrivial : Bool
  suggestedResponseLength : String
deriving DecidableEq, Repr

/-- The code-fence stripping applied before every JSON.parse:
content.replace of json fences with and without a trailing newline, then
trim. -/
def cleanFences (s : String) : String :=
  (((((s.replace "```json\n" "").replace "```json" "").replace "```\n" "").replace
      "```" "")).trim

/-- The fields JSON.parse can deliver to classifyQuery; a missing field is
none. -/
structure ClassifyFields where
  isTrivial : Option Bool
  suggestedResponseLength : Option String
deriving DecidableEq, Repr

/-- The fields JSON.parse can deliver to detectPII. -/
structure PIIFields where
  containsPII : Option Bool
  piiTypes : Option (List String)
  explanation : Option String
deriving DecidableEq, Repr

/-- The fields JSON.parse can deliver to analyzeConversation. -/
structure AnalysisFields where
  isUseful : Option Bool
  reason : Option String
  topics : Option (List String)
  insights : Option (List String)
  summary : Option String
  relatedTopics : Option (List String)
  isComplete : Option Bool
deriving DecidableEq, Repr

/-- JS truthiness fallback for a string field: missing and empty both fall
back to the default. -/
def orElseStr (v : Option String) (dflt : String) : String :=
  match v with
  | some s => if s == "" then dflt else s
  | none => dflt

/-- JS text || "\x7b\x7d": an empty completion is replaced by an empty
JSON object before cleaning. -/
def orEmptyJson (text : String) : String :=
  if text == "" then "\x7b\x7d" else text

/-- LLMService.classifyQuery: the generateText call and the parse run
inside try/catch; a failure or unparsable payload yields the neutral
default isTrivial = false, length medium.  The parse itself is an abstract
parameter standing for JSON.parse plus field extraction. -/
def classifyQuery (parse : String → Option ClassifyFields) (net : NetOutcome) :
    QueryClassification :=
  match net with
  | NetOutcome.failure => { isTrivial := false, suggestedResponseLength := "medium" }
  | NetOutcome.ok text =>
      match parse (cleanFences (orEmptyJson text)) with
      | none => { isTrivial := false, suggestedResponseLength := "medium" }
      | some r =>
          { isTrivial := r.isTrivial.getD false,
            suggestedResponseLength := orElseStr r.suggestedResponseLength "medium" }

/-- LLMService.chat: NO try/catch in the source — a rejected generateText
propagates to the caller; only an empty completion text is replaced by the
apology fallback. -/
def chat (net : NetOutcome) : Except Unit String :=
  match net with
  | NetOutcome.failure => Except.error ()
  | NetOutcome.ok text =>
      Except.ok (if text == "" then
        "I apologize, but I couldn\x27t generate a response." else text)

/-- LLMService.chatStream: no try/catch either; the chunk sequence is
modelled as a one-chunk list, and a network failure surfaces to whoever
consumes the stream. -/
def chatStream (net : NetOutcome) : Except Unit (List String) :=
  match net with
  | NetOutcome.failure => Except.error ()
  | NetOutcome.ok text => Except.ok [text]

/-- LLMService.detectPII: failure and parse errors both land in the catch
with the neutral no-PII default. -/
def detectPII (parse : String → Option PIIFields) (net : NetOutcome) :
    PIIDetectionResult :=
  match net with
  | NetOutcome.failure =>
      { containsPII := false, piiTypes := [],
        explanation := "PII detection unavailable" }
  | NetOutcome.ok text =>
      match parse (cleanFences (orEmptyJson text)) with
      | none =>
          { containsPII := false, piiTypes := [],
            explanation := "PII detection unavailable" }
      | some r =>
          { containsPII := r.containsPII.getD false,
            piiTypes := r.piiTypes.getD [],
            explanation := r.explanation.getD "" }

/-- The catch default of analyzeConversation. -/
def neutralAnalysis : ConversationAnalysis :=
  { isUseful := false, reason := "Analysis failed", topics := [],
    insights := [], summary := "", relatedTopics := [], isComplete := true }

/-- LLMService.analyzeConversation: failure and parse errors yield the
neutral verdict; extracted topics are truncated to 6 and isComplete uses
the nullish-coalescing default true. -/
def analyzeConversation (parse : String → Option AnalysisFields)
    (net : NetOutcome) : ConversationAnalysis :=
  match net with
  | NetOutcome.failure => neutralAnalysis
  | NetOutcome.ok text =>
      match parse (cleanFences (orEmptyJson text)) with
      | none => neutralAnalysis
      | some r =>
          { isUseful := r.isUseful.getD false,
            reason := r.reason.getD "",
            topics := (r.topics.getD []).take 6,
            insights := r.insights.getD [],
            summary := r.summary.getD "",
            relatedTopics := r.relatedTopics.getD [],
            isComplete := r.isComplete.getD true }

/- ==== PROCESSOR: storeConversationData (conversation-processor.ts) ==== -/

/-- JS topicName.toLowerCase() with every character outside [a-z0-9-]
replaced by a hyphen, from storeConversationData. -/
def sanitizeTopicKey (name : String) : String :=
  String.mk ((name.data.map Char.toLower).map (fun c =>
    if ('a' ≤ c ∧ c ≤ 'z') ∨ ('0' ≤ c ∧ c ≤ '9') ∨ c = '-' then c else '-'))

/-- The deterministic topic id of the processor: "topic_" ++ sanitized name. -/
def processorTopicId (name : String) : String :=
  "topic_" ++ sanitizeTopicKey name

/-- INSERT INTO topics ... ON CONFLICT(id) DO UPDATE SET description =
COALESCE(excluded.description, description).  The conflict clause covers
only the primary key; an insert whose raw name collides with a different
row violates UNIQUE(name) and the statement throws. -/
def topicUpsert (topics : List TopicRow) (topicName summary : String) :
    Except String (List TopicRow) :=
  let topicId := processorTopicId topicName
  if topics.any (fun t => t.id == topicId) then
    Except.ok (topics.map (fun t =>
      if t.id == topicId then { t with description := some summary } else t))
  else if topics.any (fun t => t.name == topicName) then
    Except.error "UNIQUE constraint failed: topics.name"
  else
    Except.ok (topics ++
      [{ id := topicId, name := topicName, description := some summary }])

/-- INSERT OR IGNORE INTO conversation_topics. -/
def conversationTopicLink (rows : List ConversationTopicRow)
    (conversationId topicId : String) : List ConversationTopicRow :=
  if rows.any (fun ct =>
      ct.conversationId == conversationId && ct.topicId == topicId) then rows
  else rows ++ [{ conversationId := conversationId, topicId := topicId }]

/-- INSERT OR IGNORE INTO insight_topics. -/
def insightTopicLink (rows : List InsightTopicRow) (insightId topicId : String) :
    List InsightTopicRow :=
  if rows.any (fun it => it.insightId == insightId && it.topicId == topicId) then
    rows
  else rows ++ [{ insightId := insightId, topicId := topicId }]

/-- INSERT INTO topic_relations ... VALUES (..., 0.5, related)
ON CONFLICT(id) DO UPDATE SET strength = MIN(1.0, strength + 0.1). -/
def relationUpsert (rels : List TopicRelationRow)
    (relationId sourceId targetId : String) : List TopicRelationRow :=
  if rels.any (fun r => r.id == relationId) then
    rels.map (fun r =>
      if r.id == relationId then { r with strength := min 1 (r.strength + 1/10) }
      else r)
  else
    rels ++ [{ id := relationId, sourceTopicId := sourceId,
               targetTopicId := targetId, strength := 1/2,
               relationType := "related" }]

/-- INSERT INTO insights: a plain insert, throws on a duplicate id. -/
def insightInsert (rows : List InsightRow) (ins : InsightRow) :
    Except String (List InsightRow) :=
  if rows.any (fun i => i.id == ins.id) then
    Except.error "UNIQUE constraint failed: insights.id"
  else Except.ok (rows ++ [ins])

/-- INSERT OR REPLACE INTO global_insights. -/
def globalInsightUpsert (rows : List GlobalInsightRow) (row : GlobalInsightRow) :
    List GlobalInsightRow :=
  if rows.any (fun g => g.id == row.id) then
    rows.map (fun g => if g.id == row.id then row else g)
  else rows ++ [row]

/-- A single awaited D1 statement of the useful branch of the processor: it
reads and writes the database and can throw.  The source runs these
sequentially with no surrounding transaction, so a throw between
statements leaves the effects of every earlier statement in place. -/
abbrev Stmt := DB → Except String DB

/-- JS Array.join with a comma. -/
def joinComma : List String → String
  | [] => ""
  | [s] => s
  | s :: rest => s ++ "," ++ joinComma rest

/-- Per-topic statements of storeConversationData: upsert the topic row,
then link the conversation to it (INSERT OR IGNORE, never throws). -/
def topicStmts (conversationId summary : String) : List String → List Stmt
  | [] => []
  | topicName :: rest =>
      (fun db => (topicUpsert db.topics topicName summary).map
        (fun ts => { db with topics := ts }))
      :: (fun db =>
            let links := conversationTopicLink db.conversationTopics
              conversationId (processorTopicId topicName)
            Except.ok { db with conversationTopics := links })
      :: topicStmts conversationId summary rest

/-- Ordered pairs (i, j) with i < j, as in the nested relation loops of
storeConversationData. -/
def pairsLt : List α → List (α × α)
  | [] => []
  | x :: xs => (xs.map (fun y => (x, y))) ++ pairsLt xs

/-- The relation upsert statement for one topic pair. -/
def relationStmt (p : String × String) : Stmt := fun db =>
  let rels := relationUpsert db.topicRelations
    ("rel_" ++ processorTopicId p.1 ++ "_" ++ processorTopicId p.2)
    (processorTopicId p.1) (processorTopicId p.2)
  Except.ok { db with topicRelations := rels }

/-- One insight insert; the fresh Date.now-based identifier is modelled
deterministically as "insight_" ++ the index of the insight. -/
def insightInsertStmt (conversationId userId content : String) (k : Nat) : Stmt :=
  fun db =>
    (insightInsert db.insights
      { id := "insight_" ++ toString k, conversationId := conversationId,
        userId := userId, content := content, importanceScore := 7/10,
        createdAt := 0 }).map (fun rows => { db with insights := rows })

/-- Linking one insight to one topic (INSERT OR IGNORE). -/
def insightLinkStmt (topicName : String) (k : Nat) : Stmt := fun db =>
  let links := insightTopicLink db.insightTopics ("insight_" ++ toString k)
    (processorTopicId topicName)
  Except.ok { db with insightTopics := links }

/-- Per-insight statements: the insert followed by one link per topic. -/
def insightStmts (conversationId userId : String) (topics : List String) :
    List String → Nat → List Stmt
  | [], _ => []
  | content :: rest, k =>
      insightInsertStmt conversationId userId content k
        :: ((topics.map (fun tn => insightLinkStmt tn k))
          ++ insightStmts conversationId userId topics rest (k + 1))

/-- The consent check and conditional global-insight upsert: SELECT
consent_global FROM users, and only when it is set, INSERT OR REPLACE INTO
global_insights with id global_conversationId. -/
def globalInsightStmt (conversationId userId : String)
    (analysis : ConversationAnalysis) : Stmt := fun db =>
  let consent := match db.users.find? (fun u => u.id == userId) with
    | some u => u.consentGlobal
    | none => false
  if consent then
    let g := globalInsightUpsert db.globalInsights
      { id := "global_" ++ conversationId, content := analysis.summary,
        topicIds := joinComma (analysis.topics.map processorTopicId) }
    Except.ok { db with globalInsights := g }
  else Except.ok db

/-- The statements of storeConversationData in source order: topic upserts
interleaved with conversation links, then pair relations, then insight
inserts with their topic links, then the consent-gated global upsert. -/
def storeConversationDataStmts (conversationId userId : String)
    (analysis : ConversationAnalysis) : List Stmt :=
  topicStmts conversationId analysis.summary analysis.topics
    ++ (pairsLt analysis.topics).map relationStmt
    ++ insightStmts conversationId userId analysis.topics analysis.insights 0
    ++ [globalInsightStmt conversationId userId analysis]

/-- UPDATE conversations SET processed = 1, is_useful, usefulness_reason
(processConversation). -/
def verdictStmt (conversationId : String) (analysis : ConversationAnalysis) :
    Stmt := fun db =>
  let convs := db.conversations.map (fun c =>
    if c.id == conversationId then
      { c with
        processed := true, isUseful := some analysis.isUseful,
        usefulnessReason := some analysis.reason }
    else c)
  Except.ok { db with conversations := convs }

/-- INSERT INTO conversation_processing_logs (processConversation). -/
def logStmt (conversationId userId : String) (analysis : ConversationAnalysis)
    (now : Int) : Stmt := fun db =>
  let row : ProcessingLogRow :=
    { id := "log_" ++ toString db.fresh, conversationId := conversationId,
      userId := userId, processedAt := now, isUseful := analysis.isUseful,
      reason := analysis.reason, topicsExtracted := analysis.topics,
      insightsCount := analysis.insights.length }
  let logs := db.processingLogs ++ [row]
  Except.ok { db with processingLogs := logs, fresh := db.fresh + 1 }

/-- Run statements left to right; on a throw, return the state reached so
far (each awaited statement already committed) and the error. -/
def runStmts (db : DB) : List Stmt → DB × Option String
  | [] => (db, none)
  | f :: fs =>
      match f db with
      | Except.ok db1 => runStmts db1 fs
      | Except.error e => (db, some e)

/-- The catch branch of processStaleConversations: UPDATE conversations SET
processed = 1, is_useful = 0, usefulness_reason = Processing error. -/
def markProcessingError (db : DB) (conversationId : String) : DB :=
  { db with conversations := db.conversations.map (fun c =>
      if c.id == conversationId then
        { c with
          processed := true, isUseful := some false,
          usefulnessReason := some "Processing error" }
      else c) }

/-- The useful branch of processConversation under the catch of
processStaleConversations: run storeConversationData, the verdict update
and the log insert; on a throw, keep the partial state and stamp the
Processing error verdict. -/
def processUsefulBranch (db : DB) (conversationId userId : String)
    (analysis : ConversationAnalysis) (now : Int) : DB × Option String :=
  let stmts := storeConversationDataStmts conversationId userId analysis
      ++ [verdictStmt conversationId analysis,
          logStmt conversationId userId analysis now]
  match runStmts db stmts with
  | (db1, none) => (db1, none)
  | (db1, some e) => (markProcessingError db1 conversationId, some e)

/-- The dedicated user of the Gmail ingestion path (gmail-sync.ts). -/
def GMAIL_USER_ID : String := "gmail_sync_global"

/-- ensureGmailUser: INSERT OR IGNORE INTO users (id, consent_global)
VALUES (gmail_sync_global, 1). -/
def ensureGmailUser (db : DB) : DB :=
  if db.users.any (fun u => u.id == GMAIL_USER_ID) then db
  else { db with users := db.users ++ [{ id := GMAIL_USER_ID, consentGlobal := true }] }

/-- A statement is benign for a user when, on success, it neither touches
the users table nor (while every row of that user has consent_global off)
the global_insights table. -/
def GoodStmt (userId : String) (s : Stmt) : Prop :=
  ∀ db db1, s db = Except.ok db1 →
    db1.users = db.users ∧
    ((∀ r ∈ db.users, r.id = userId → r.consentGlobal = false) →
      db1.globalInsights = db.globalInsights)

/-- POST /api/graph/link-topics: 400 when a topic name is missing, else
linkTopics with the client-provided strength (0.5 when omitted). -/
def linkTopicsRoute (db : DB) (topic1 topic2 : String) (strength : ℚ) :
    Option DB :=
  if topic1 == "" || topic2 == "" then none
  else some (linkTopics db topic1 topic2 strength)

/-- The state reached by reinforcing the pair (a, b) through linkTopics
starting from the empty database: two topics and one relation of the given
strength. -/
def linkABState (s : ℚ) : DB :=
  { emptyDB with
    topics := [{ id := "topic_0", name := "a", description := none },
               { id := "topic_1", name := "b", description := none }],
    topicRelations := [{ id := "rel_2", sourceTopicId := "topic_0",
                         targetTopicId := "topic_1", strength := s,
                         relationType := "related" }],
    fresh := 3 }

/-- Concrete conversation used by the C7 witness. -/
def staleDemoConv : ConversationRow :=
  { id := "c1", userId := "u1", summary := none, messageCount := 2,
    createdAt := 0, updatedAt := 10, processed := false, isUseful := none,
    usefulnessReason := none, globalSharingBlocked := false, deleted := false,
    deletedAt := none }

/-- Concrete database used by the C7 witness. -/
def staleDemoDB : DB := { emptyDB with conversations := [staleDemoConv] }

/-- A conversation that detected PII and whose user declined sharing. -/
def piiDemoConv : ConversationRow :=
  { id := "cpii", userId := "u1", summary := some "private summary",
    messageCount := 4, createdAt := 50, updatedAt := 60, processed := true,
    isUseful := some true, usefulnessReason := some "useful",
    globalSharingBlocked := true, deleted := false, deletedAt := none }

/-- An insight derived from the blocked conversation. -/
def piiDemoInsight : InsightRow :=
  { id := "ins1", conversationId := "cpii", userId := "u1",
    content := "private insight", importanceScore := 7/10, createdAt := 55 }

/-- Database holding only the blocked conversation and its insight. -/
def piiDemoDB : DB :=
  { emptyDB with
    users := [{ id := "u1", consentGlobal := false }],
    conversations := [piiDemoConv], insights := [piiDemoInsight] }

/-- A soft-deleted conversation of user u1. -/
def deletedDemoConv : ConversationRow :=
  { id := "cdel", userId := "u1", summary := some "old chat",
    messageCount := 2, createdAt := 10, updatedAt := 20, processed := true,
    isUseful := some true, usefulnessReason := none,
    globalSharingBlocked := false, deleted := true, deletedAt := some 30 }

/-- Database holding only the soft-deleted conversation. -/
def deletedDemoDB : DB :=
  { emptyDB with
    users := [{ id := "u1", consentGlobal := false }],
    conversations := [deletedDemoConv] }

/-- Conversation owned by u1 used by the C5 witness. -/
def delDemoConv : ConversationRow :=
  { id := "cd1", userId := "u1", summary := some "s", messageCount := 2,
    createdAt := 1, updatedAt := 2, processed := true, isUseful := some true,
    usefulnessReason := none, globalSharingBlocked := false, deleted := false,
    deletedAt := none }

/-- Database used by the C5 witness: one conversation with an insight, a
topic link, a message and a global insight. -/
def delDemoDB : DB :=
  { emptyDB with
    users := [{ id := "u1", consentGlobal := false }],
    conversations := [delDemoConv],
    insights := [{ id := "i1", conversationId := "cd1", userId := "u1",
                   content := "fact", importanceScore := 7/10, createdAt := 3 }],
    conversationTopics := [{ conversationId := "cd1", topicId := "t1" }],
    messages := [{ id := "m1", conversationId := "cd1", role := "user",
                   content := "hello", createdAt := 1 }],
    globalInsights := [{ id := "global_cd1", content := "sum", topicIds := "t1" }] }

/-- Unprocessed conversation fed to the processor in the C4 scenario. -/
def procDemoConv : ConversationRow :=
  { id := "cp1", userId := "u1", summary := none, messageCount := 3,
    createdAt := 0, updatedAt := 0, processed := false, isUseful := none,
    usefulnessReason := none, globalSharingBlocked := false, deleted := false,
    deletedAt := none }

/-- Database for the C4 scenario: an existing topic row whose raw name
collides with one of the topics the analyser will return. -/
def procDemoDB : DB :=
  { emptyDB with
    users := [{ id := "u1", consentGlobal := false }],
    topics := [{ id := "topic_x", name := "Conflict Topic", description := none }],
    conversations := [procDemoConv] }

/-- Analyser verdict whose second topic collides by name (not by id) with
the pre-existing row topic_x during the useful branch. -/
def procDemoAnalysis : ConversationAnalysis :=
  { isUseful := true, reason := "useful", topics := ["tls", "Conflict Topic"],
    insights := ["TLS 1.3 has a one round trip handshake"], summary := "sum",
    relatedTopics := [], isComplete := true }

/- ===================== THEOREMS ===================== -/

theorem mem_insertByKey (key : α → Int) (x a : α) (l : List α) :
    a ∈ insertByKey key x l ↔ a = x ∨ a ∈ l := by
  induction l with
  | nil => simp [insertByKey]
  | cons y ys ih =>
      by_cases h : key x ≤ key y
      · simp [insertByKey, h]
      · simp only [insertByKey, if_neg h, List.mem_cons, ih]
        tauto

theorem mem_sortByKeyAsc (key : α → Int) (a : α) (l : List α) :
    a ∈ sortByKeyAsc key l ↔ a ∈ l := by
  induction l with
  | nil => simp [sortByKeyAsc]
  | cons x xs ih => simp [sortByKeyAsc, mem_insertByKey, ih]

theorem mem_sortByKeyDesc (key : α → Int) (a : α) (l : List α) :
    a ∈ sortByKeyDesc key l ↔ a ∈ l := by
  simp [sortByKeyDesc, mem_sortByKeyAsc]

theorem pairwise_insertByKey (key : α → Int) (x : α) (l : List α)
    (h : List.Pairwise (fun a b => key a ≤ key b) l) :
    List.Pairwise (fun a b => key a ≤ key b) (insertByKey key x l) := by
  induction l with
  | nil => simp [insertByKey]
  | cons y ys ih =>
      rcases List.pairwise_cons.mp h with ⟨hy, hys⟩
      by_cases hxy : key x ≤ key y
      · rw [show insertByKey key x (y :: ys) = x :: y :: ys by
          simp [insertByKey, hxy]]
        refine List.pairwise_cons.mpr ⟨?_, h⟩
        intro b hb
        rcases List.mem_cons.mp hb with rfl | hb
        · exact hxy
        · exact le_trans hxy (hy b hb)
      · rw [show insertByKey key x (y :: ys) = y :: insertByKey key x ys by
          simp [insertByKey, hxy]]
        refine List.pairwise_cons.mpr ⟨?_, ih hys⟩
        intro b hb
        rcases (mem_insertByKey key x b ys).mp hb with rfl | hb
        · exact le_of_lt (lt_of_not_le hxy)
        · exact hy b hb

theorem pairwise_sortByKeyAsc (key : α → Int) (l : List α) :
    List.Pairwise (fun a b => key a ≤ key b) (sortByKeyAsc key l) := by
  induction l with
  | nil => simp [sortByKeyAsc]
  | cons x xs ih => exact pairwise_insertByKey key x _ ih

theorem anonymize_foldl (convInsights rows : List InsightRow) :
    convInsights.foldl (fun rs ins =>
        rs.map (fun i =>
          if i.id == ins.id then { i with userId := "anonymous" } else i)) rows
      = rows.map (fun i =>
          if convInsights.any (fun x => x.id == i.id) then
            { i with userId := "anonymous" }
          else i) := by
  induction convInsights generalizing rows with
  | nil => simp
  | cons x xs ih =>
      rw [List.foldl_cons, ih, List.map_map]
      refine List.map_congr_left ?_
      intro i _
      simp only [Function.comp_apply]
      by_cases h : i.id = x.id
      · have hx : (x.id == i.id) = true := by simp [h]
        simp [h, hx, List.any_cons]
      · have hx : (x.id == i.id) = false := by
          simp only [beq_eq_false_iff_ne, ne_eq]
          exact fun hc => h hc.symm
        simp [h, hx, List.any_cons]

/-- C7: findStaleConversations returns at most 10 rows of the conversations
table, each unprocessed, non-empty and idle longer than the (default 120 s)
threshold, ordered by updatedAt ascending. -/
theorem findStaleConversations_spec (db : DB) (now : Int) :
    (∀ c ∈ findStaleConversations db now STALE_THRESHOLD_SECONDS,
        c ∈ db.conversations ∧ c.processed = false ∧ c.messageCount > 0 ∧
          c.updatedAt < now - 120) ∧
      (findStaleConversations db now STALE_THRESHOLD_SECONDS).length ≤ 10 ∧
      List.Pairwise (fun a b => a.updatedAt ≤ b.updatedAt)
        (findStaleConversations db now STALE_THRESHOLD_SECONDS) := by
  refine ⟨?_, ?_, ?_⟩
  · intro c hc
    simp only [findStaleConversations] at hc
    have h1 := List.take_subset 10 _ hc
    have hmem := (mem_sortByKeyAsc (fun c : ConversationRow => c.updatedAt) c _).mp h1
    have hin := List.mem_of_mem_filter hmem
    have hp := List.of_mem_filter hmem
    simp only [staleFilter, Bool.and_eq_true, beq_iff_eq, decide_eq_true_eq] at hp
    refine ⟨hin, hp.1.1, hp.2, ?_⟩
    have h2 : (STALE_THRESHOLD_SECONDS : Int) = 120 := by norm_num [STALE_THRESHOLD_SECONDS]
    omega
  · simp only [findStaleConversations, List.length_take]
    exact min_le_left _ _
  · have hs := pairwise_sortByKeyAsc (fun c : ConversationRow => c.updatedAt)
      (db.conversations.filter (staleFilter (now - STALE_THRESHOLD_SECONDS)))
    exact List.Pairwise.sublist (List.take_sublist 10 _) hs

/-- Witness for C7: at a concrete database and time the returned row is in
the table, unprocessed, non-empty and older than now - 120. -/
theorem findStaleConversations_spec_witness :
    staleDemoConv ∈ staleDemoDB.conversations ∧
      staleDemoConv.processed = false ∧ staleDemoConv.messageCount > 0 ∧
      staleDemoConv.updatedAt < 1000 - 120 :=
  (findStaleConversations_spec staleDemoDB 1000).1 staleDemoConv (by decide)

/-- C1: the store queries getGlobalInsights and
getGlobalConversationSummaries do exclude the blocked conversation, but the
raw SQL of GET /api/graph/global has no global_sharing_blocked filter: at a
database whose only conversation is blocked, the route response still
contains the insight row and the summary of that conversation. -/
theorem globalRoute_leaks_blocked_conversation :
    piiDemoConv.globalSharingBlocked = true ∧
      getGlobalInsightsRows piiDemoDB 25 = [] ∧
      getGlobalConversationSummariesRows piiDemoDB 15 = [] ∧
      (globalRouteInsights piiDemoDB).map (fun p => p.1.conversationId) = ["cpii"] ∧
      (globalRouteConversations piiDemoDB).map (fun p => p.1.id) = ["cpii"] ∧
      (globalRouteConversations piiDemoDB).map (fun p => p.1.summary) =
        [some "private summary"] := by
  decide

/-- C2: GET /api/chat/history/:userId delegates to getUserConversations,
which does not filter on the deleted column, so a soft-deleted conversation
is still returned; the unused getUserActiveConversations would have
excluded it. -/
theorem chatHistory_returns_deleted_conversation :
    deletedDemoConv.deleted = true ∧
      (chatHistoryEndpoint deletedDemoDB "u1" 10).map (fun p => p.1.id) = ["cdel"] ∧
      getUserActiveConversations deletedDemoDB "u1" 10 = [] := by
  decide

/-- C5: deleteConversationFromUserGraph returns not-deleted (and the route
answers 404) with no writes when no conversation matches the id and owner;
on success it anonymizes every insight of the conversation, deletes its
conversation-topic links, marks the conversation deleted with a timestamp,
and leaves messages, global insights, topics and edges untouched. -/
theorem deleteConversationFromUserGraph_spec (db : DB)
    (conversationId userId : String) (now : Int) :
    (db.conversations.find? (fun c =>
        c.id == conversationId && c.userId == userId) = none →
      (deleteConversationFromUserGraph db conversationId userId now).1.deleted
          = false ∧
        (deleteConversationFromUserGraph db conversationId userId now).2 = db ∧
        (deleteConversationRoute db conversationId userId now).1
          = DeleteRouteStatus.notFound) ∧
    (db.conversations.find? (fun c =>
        c.id == conversationId && c.userId == userId) ≠ none →
      (deleteConversationFromUserGraph db conversationId userId now).1.deleted
          = true ∧
        (∀ i ∈ (deleteConversationFromUserGraph db conversationId userId now).2.insights,
          i.conversationId = conversationId → i.userId = "anonymous") ∧
        (deleteConversationFromUserGraph db conversationId userId now).2.conversationTopics
          = db.conversationTopics.filter (fun ct =>
              !(ct.conversationId == conversationId)) ∧
        (∀ c ∈ (deleteConversationFromUserGraph db conversationId userId now).2.conversations,
          c.id = conversationId → c.deleted = true ∧ c.deletedAt = some now) ∧
        (deleteConversationFromUserGraph db conversationId userId now).2.messages
          = db.messages ∧
        (deleteConversationFromUserGraph db conversationId userId now).2.globalInsights
          = db.globalInsights ∧
        (deleteConversationFromUserGraph db conversationId userId now).2.topics
          = db.topics ∧
        (deleteConversationFromUserGraph db conversationId userId now).2.topicRelations
          = db.topicRelations ∧
        (deleteConversationRoute db conversationId userId now).1
          = DeleteRouteStatus.ok
              (deleteConversationFromUserGraph db conversationId userId now).1.insightsAnonymized) := by
  constructor
  · intro hnone
    simp [deleteConversationFromUserGraph, deleteConversationRoute, hnone]
  · intro hsome
    obtain ⟨c0, hc0⟩ := Option.ne_none_iff_exists'.mp hsome
    refine ⟨?_, ?_, ?_, ?_, ?_, ?_, ?_, ?_, ?_⟩
    · simp [deleteConversationFromUserGraph, hc0]
    · intro i hi hconv
      simp only [deleteConversationFromUserGraph, hc0] at hi
      rw [anonymize_foldl] at hi
      rcases List.mem_map.mp hi with ⟨j, hj, rfl⟩
      by_cases hany : (db.insights.filter (fun i =>
          i.conversationId == conversationId)).any (fun x => x.id == j.id) = true
      · simp only [hany, if_pos]
      · exfalso
        apply hany
        have hjconv : j.conversationId = conversationId := by
          simpa [hany] using hconv
        refine List.any_eq_true.mpr ⟨j, ?_, by simp⟩
        exact List.mem_filter.mpr ⟨hj, by simp [hjconv]⟩
    · simp [deleteConversationFromUserGraph, hc0]
    · intro c hc hid
      simp only [deleteConversationFromUserGraph, hc0] at hc
      rcases List.mem_map.mp hc with ⟨c1, hc1, rfl⟩
      by_cases h : c1.id = conversationId
      · simp [h]
      · have hne : (c1.id == conversationId) = false := by simp [h]
        simp only [hne, Bool.false_eq_true, if_false] at hid
        exact absurd hid h
    · simp [deleteConversationFromUserGraph, hc0]
    · simp [deleteConversationFromUserGraph, hc0]
    · simp [deleteConversationFromUserGraph, hc0]
    · simp [deleteConversationFromUserGraph, hc0]
    · simp [deleteConversationFromUserGraph, deleteConversationRoute, hc0]

/-- C6: the PII probe runs iff the conversation is not already blocked and
the query is not trivial; the globalSharingBlocked write happens exactly
when PII was detected (payload present) and the client passed
globalSharingConsent = false; and a consent = true call to the pii-consent
endpoint leaves the database unchanged and reports blocked = false. -/
theorem piiGate_spec (db : DB) (convId : String) (blocked0 isTrivial : Bool)
    (probe : PIIDetectionResult) (consent : Option Bool) :
    ((sendPiiGate db convId blocked0 isTrivial probe consent).probeRan
        = (!blocked0 && !isTrivial)) ∧
      ((sendPiiGate db convId blocked0 isTrivial probe consent).setBlockedCalled = true ↔
        ((sendPiiGate db convId blocked0 isTrivial probe consent).piiDetection ≠ none ∧
          consent = some false)) ∧
      ((sendPiiGate db convId blocked0 isTrivial probe consent).setBlockedCalled = false →
        (sendPiiGate db convId blocked0 isTrivial probe consent).db = db) ∧
      ((sendPiiGate db convId blocked0 isTrivial probe consent).setBlockedCalled = true →
        (sendPiiGate db convId blocked0 isTrivial probe consent).db
          = setConversationGlobalSharingBlocked db convId true) ∧
      (piiConsentEndpoint db convId true).1 = db ∧
      (piiConsentEndpoint db convId true).2.2 = false := by
  rcases consent with _ | b
  all_goals try cases b
  all_goals cases blocked0 <;> cases isTrivial <;> cases hp : probe.containsPII <;>
    simp [sendPiiGate, piiConsentEndpoint, hp]

/-- Witness for C6: with a non-blocked conversation, a non-trivial query, a
PII hit and consent = false, the probe ran and the flag write occurred. -/
theorem piiGate_spec_witness :
    (sendPiiGate emptyDB "c1" false false
        { containsPII := true, piiTypes := ["email"], explanation := "e" }
        (some false)).probeRan = true ∧
      (sendPiiGate emptyDB "c1" false false
        { containsPII := true, piiTypes := ["email"], explanation := "e" }
        (some false)).db = setConversationGlobalSharingBlocked emptyDB "c1" true := by
  have h := piiGate_spec emptyDB "c1" false false
    { containsPII := true, piiTypes := ["email"], explanation := "e" } (some false)
  exact ⟨by simpa using h.1, h.2.2.2.1 (by decide)⟩

/-- Witness for C5: concrete success and not-found cases. -/
theorem deleteConversationFromUserGraph_spec_witness :
    ((deleteConversationFromUserGraph delDemoDB "nope" "u1" 9).1.deleted = false ∧
      (deleteConversationRoute delDemoDB "nope" "u1" 9).1
        = DeleteRouteStatus.notFound) ∧
      (deleteConversationFromUserGraph delDemoDB "cd1" "u1" 9).1.deleted = true ∧
      (deleteConversationFromUserGraph delDemoDB "cd1" "u1" 9).2.messages
        = delDemoDB.messages ∧
      (deleteConversationFromUserGraph delDemoDB "cd1" "u1" 9).2.globalInsights
        = delDemoDB.globalInsights := by
  have h1 := (deleteConversationFromUserGraph_spec delDemoDB "nope" "u1" 9).1
    (by decide)
  have h2 := (deleteConversationFromUserGraph_spec delDemoDB "cd1" "u1" 9).2
    (by decide)
  exact ⟨⟨h1.1, h1.2.2⟩, h2.1, h2.2.2.2.2.1, h2.2.2.2.2.2.1⟩

theorem min_clamp_step (x : ℚ) : min 1 (min 1 x + 1/10) = min 1 (x + 1/10) := by
  rcases le_total x 1 with h | h
  · rw [min_eq_right h]
  · rw [min_eq_left h, min_eq_left (by linarith), min_eq_left (by linarith)]

theorem relationUpsert_iter (relationId sourceId targetId : String) (k : Nat) :
    (fun rels => relationUpsert rels relationId sourceId targetId)^[k + 1] []
      = [{ id := relationId, sourceTopicId := sourceId, targetTopicId := targetId,
           strength := min 1 (1/2 + (k : ℚ)/10), relationType := "related" }] := by
  induction k with
  | zero =>
      rw [Function.iterate_one]
      have hmin : min (1 : ℚ) (1/2 + ((0 : Nat) : ℚ)/10) = 1/2 := by
        have h0 : (1 : ℚ)/2 + ((0 : Nat) : ℚ)/10 = 1/2 := by push_cast; ring
        rw [h0]
        exact min_eq_right (by norm_num)
      rw [hmin]
      rfl
  | succ n ih =>
      rw [Function.iterate_succ_apply', ih]
      have hone : relationUpsert
          [{ id := relationId, sourceTopicId := sourceId, targetTopicId := targetId,
             strength := min 1 (1/2 + (n : ℚ)/10), relationType := "related" }]
          relationId sourceId targetId
          = [{ id := relationId, sourceTopicId := sourceId, targetTopicId := targetId,
               strength := min 1 (min 1 (1/2 + (n : ℚ)/10) + 1/10),
               relationType := "related" }] := by
        simp [relationUpsert]
      rw [hone, min_clamp_step]
      have hstep : (1 : ℚ)/2 + (n : ℚ)/10 + 1/10 = 1/2 + ((n + 1 : Nat) : ℚ)/10 := by
        push_cast; ring
      rw [hstep]

theorem linkAB_first : linkTopics emptyDB "a" "b" (1/2) = linkABState (1/2) :=
  rfl

theorem linkAB_step (s : ℚ) :
    linkTopics (linkABState s) "a" "b" (1/2) = linkABState (min 1 (s + 1/10)) :=
  rfl

theorem linkAB_iter (k : Nat) :
    (fun db => linkTopics db "a" "b" (1/2))^[k + 1] emptyDB
      = linkABState (min 1 (1/2 + (k : ℚ)/10)) := by
  induction k with
  | zero =>
      rw [Function.iterate_one]
      have hmin : min (1 : ℚ) (1/2 + ((0 : Nat) : ℚ)/10) = 1/2 := by
        have h0 : (1 : ℚ)/2 + ((0 : Nat) : ℚ)/10 = 1/2 := by push_cast; ring
        rw [h0]
        exact min_eq_right (by norm_num)
      rw [hmin]
      exact linkAB_first
  | succ n ih =>
      rw [Function.iterate_succ_apply', ih, linkAB_step, min_clamp_step]
      have hstep : min (1 : ℚ) (1/2 + (n : ℚ)/10 + 1/10)
          = min 1 (1/2 + ((n + 1 : Nat) : ℚ)/10) := by
        have h2 : (1 : ℚ)/2 + (n : ℚ)/10 + 1/10 = 1/2 + ((n + 1 : Nat) : ℚ)/10 := by
          push_cast; ring
        rw [h2]
      rw [hstep]

/-- C3 counterexample: one call to linkTopics for the pair (a, b) with
strength 2 (reachable through POST /api/graph/link-topics, which forwards
the client-supplied strength) stores strength 2: not the claimed
min(1, 0.5 + 0.1 (k - 1)) for k = 1, and outside [0, 1]. -/
theorem linkTopics_strength_unclamped :
    (linkTopics emptyDB "a" "b" 2).topicRelations.map (fun r => r.strength) = [2] ∧
      linkTopicsRoute emptyDB "a" "b" 2 = some (linkTopics emptyDB "a" "b" 2) ∧
      ¬((2 : ℚ) ≤ 1) ∧ (2 : ℚ) ≠ min 1 (1/2 + ((1 : ℚ) - 1)/10) := by
  refine ⟨rfl, rfl, by norm_num, ?_⟩
  have h12 : (1 : ℚ)/2 + ((1 : ℚ) - 1)/10 = 1/2 := by ring
  rw [h12, min_eq_right (by norm_num : (1 : ℚ)/2 ≤ 1)]
  norm_num

/-- C3 amended: when every reinforcement event uses the default creation
strength 0.5 (as the co-occurrence upsert of the processor and the in-code
linkTopics callers do), k events on a pair leave strength
min(1, 0.5 + 0.1 (k - 1)), which lies in [0, 1]; this holds on both the
processor path (relationUpsert) and the store path (linkTopics). -/
theorem topicStrength_reinforcement_law (k : Nat) (hk : 1 ≤ k) :
    ((fun rels => relationUpsert rels "rel_topic_a_topic_b" "topic_a" "topic_b")^[k]
        []).map (fun r => r.strength)
        = [min 1 (1/2 + ((k : ℚ) - 1)/10)] ∧
      ((fun db => linkTopics db "a" "b" (1/2))^[k] emptyDB).topicRelations.map
          (fun r => r.strength)
        = [min 1 (1/2 + ((k : ℚ) - 1)/10)] ∧
      0 ≤ min 1 ((1 : ℚ)/2 + ((k : ℚ) - 1)/10) ∧
      min 1 ((1 : ℚ)/2 + ((k : ℚ) - 1)/10) ≤ 1 := by
  obtain ⟨n, rfl⟩ := Nat.exists_eq_add_of_le hk
  have h1 : (1 : Nat) + n = n + 1 := by omega
  rw [h1]
  have hcast : ((n + 1 : Nat) : ℚ) - 1 = (n : ℚ) := by push_cast; ring
  refine ⟨?_, ?_, ?_, min_le_left _ _⟩
  · rw [relationUpsert_iter]
    simp only [List.map_cons, List.map_nil]
    rw [hcast]
  · rw [linkAB_iter]
    simp only [linkABState, List.map_cons, List.map_nil]
    rw [hcast]
  · rw [hcast]
    have hn : (0 : ℚ) ≤ (n : ℚ) := by positivity
    exact le_min (by norm_num) (by linarith)

/-- Witness for C3 amended: three reinforcement events on both paths leave
strength min(1, 0.7) = 0.7. -/
theorem topicStrength_reinforcement_law_witness :
    ((fun rels => relationUpsert rels "rel_topic_a_topic_b" "topic_a" "topic_b")^[3]
        []).map (fun r => r.strength)
      = [min 1 (1/2 + ((3 : ℚ) - 1)/10)] :=
  (topicStrength_reinforcement_law 3 (by norm_num)).1

/-- C4: the useful branch is not atomic.  When its fourth statement throws
(a UNIQUE violation on topics.name), the writes of the first statements — the
tls topic row and the conversation-topic link — stay behind, no insight was
written, and the catch stamps processed = true with reason
"Processing error", after which findStaleConversations never returns the
row again: the partial graph state is permanent. -/
theorem processor_error_leaves_partial_state :
    (processUsefulBranch procDemoDB "cp1" "u1" procDemoAnalysis 500).2
        = some "UNIQUE constraint failed: topics.name" ∧
      (processUsefulBranch procDemoDB "cp1" "u1" procDemoAnalysis 500).1.topics.map
          (fun t => t.id) = ["topic_x", "topic_tls"] ∧
      (processUsefulBranch procDemoDB "cp1" "u1" procDemoAnalysis 500).1.conversationTopics
        = [{ conversationId := "cp1", topicId := "topic_tls" }] ∧
      (processUsefulBranch procDemoDB "cp1" "u1" procDemoAnalysis 500).1.insights = [] ∧
      (processUsefulBranch procDemoDB "cp1" "u1" procDemoAnalysis 500).1.conversations.map
          (fun c => (c.processed, c.usefulnessReason))
        = [(true, some "Processing error")] ∧
      findStaleConversations
          (processUsefulBranch procDemoDB "cp1" "u1" procDemoAnalysis 500).1
          100000 STALE_THRESHOLD_SECONDS = [] ∧
      (processUsefulBranch procDemoDB "cp1" "u1" procDemoAnalysis 500).1.topics
        ≠ procDemoDB.topics := by
  decide

theorem exceptMap_ok {α β : Type} (f : α → β) (e : Except String α) (b : β)
    (h : Except.map f e = Except.ok b) : ∃ a, e = Except.ok a ∧ b = f a := by
  cases e with
  | ok a =>
      refine ⟨a, rfl, ?_⟩
      simp only [Except.map] at h
      cases h
      rfl
  | error _ => simp [Except.map] at h

theorem goodStmt_topicStmts (userId conversationId summary : String)
    (ts : List String) :
    ∀ s ∈ topicStmts conversationId summary ts, GoodStmt userId s := by
  induction ts with
  | nil => intro s hs; simp [topicStmts] at hs
  | cons tn rest ih =>
      intro s hs
      simp only [topicStmts, List.mem_cons] at hs
      rcases hs with rfl | rfl | hs
      · intro db db1 h
        obtain ⟨x, -, rfl⟩ := exceptMap_ok _ _ _ h
        exact ⟨rfl, fun _ => rfl⟩
      · intro db db1 h
        cases h
        exact ⟨rfl, fun _ => rfl⟩
      · exact ih s hs

theorem goodStmt_insightStmts (conversationId userId u : String)
    (topics : List String) (contents : List String) :
    ∀ k, ∀ s ∈ insightStmts conversationId userId topics contents k,
      GoodStmt u s := by
  induction contents with
  | nil => intro k s hs; simp [insightStmts] at hs
  | cons c rest ih =>
      intro k s hs
      simp only [insightStmts, List.mem_cons, List.mem_append, List.mem_map] at hs
      rcases hs with rfl | ⟨tn, -, rfl⟩ | hs
      · intro db db1 h
        obtain ⟨x, -, rfl⟩ := exceptMap_ok _ _ _ h
        exact ⟨rfl, fun _ => rfl⟩
      · intro db db1 h
        cases h
        exact ⟨rfl, fun _ => rfl⟩
      · exact ih (k + 1) s hs

theorem goodStmt_globalInsightStmt (conversationId userId : String)
    (a : ConversationAnalysis) :
    GoodStmt userId (globalInsightStmt conversationId userId a) := by
  intro db db1 h
  simp only [globalInsightStmt] at h
  cases hf : db.users.find? (fun u => u.id == userId) with
  | none =>
      rw [hf] at h
      simp only [Bool.false_eq_true, if_false] at h
      cases h
      exact ⟨rfl, fun _ => rfl⟩
  | some u0 =>
      rw [hf] at h
      rw [show (match some u0 with
          | some u => u.consentGlobal
          | none => false) = u0.consentGlobal from rfl] at h
      by_cases hcg : u0.consentGlobal = true
      · rw [hcg] at h
        simp only [if_true] at h
        cases h
        refine ⟨rfl, fun hall => ?_⟩
        exfalso
        have hmem := List.mem_of_find?_eq_some hf
        have hid := List.find?_some hf
        have := hall u0 hmem (by simpa using hid)
        rw [this] at hcg
        exact Bool.false_ne_true hcg
      · rw [Bool.not_eq_true] at hcg
        rw [hcg] at h
        simp only [Bool.false_eq_true, if_false] at h
        cases h
        exact ⟨rfl, fun _ => rfl⟩

theorem goodStmt_all (conversationId userId : String)
    (a : ConversationAnalysis) (now : Int) :
    ∀ s ∈ storeConversationDataStmts conversationId userId a
        ++ [verdictStmt conversationId a, logStmt conversationId userId a now],
      GoodStmt userId s := by
  intro s hs
  simp only [storeConversationDataStmts, List.append_assoc, List.mem_append,
    List.mem_cons, List.mem_map, List.not_mem_nil, or_false] at hs
  rcases hs with h1 | ⟨p, -, rfl⟩ | h2 | rfl | rfl | rfl
  · exact goodStmt_topicStmts userId conversationId a.summary a.topics s h1
  · intro db db1 h
    cases h
    exact ⟨rfl, fun _ => rfl⟩
  · exact goodStmt_insightStmts conversationId userId userId a.topics a.insights 0 s h2
  · exact goodStmt_globalInsightStmt conversationId userId a
  · intro db db1 h
    cases h
    exact ⟨rfl, fun _ => rfl⟩
  · intro db db1 h
    cases h
    exact ⟨rfl, fun _ => rfl⟩

theorem runStmts_good (userId : String) (l : List Stmt)
    (h : ∀ s ∈ l, GoodStmt userId s) :
    ∀ db : DB, (∀ r ∈ db.users, r.id = userId → r.consentGlobal = false) →
      (runStmts db l).1.users = db.users ∧
        (runStmts db l).1.globalInsights = db.globalInsights := by
  induction l with
  | nil => intro db _; exact ⟨rfl, rfl⟩
  | cons f fs ih =>
      intro db hc
      cases hf : f db with
      | ok db1 =>
          have hg := h f (List.mem_cons_self f fs) db db1 hf
          have hc1 : ∀ r ∈ db1.users, r.id = userId → r.consentGlobal = false := by
            rw [hg.1]; exact hc
          have hrest := ih (fun s hs => h s (List.mem_cons_of_mem f hs)) db1 hc1
          have hrun : runStmts db (f :: fs) = runStmts db1 fs := by
            simp [runStmts, hf]
          rw [hrun]
          exact ⟨by rw [hrest.1, hg.1], by rw [hrest.2, hg.2 hc]⟩
      | error e =>
          have hrun : runStmts db (f :: fs) = (db, some e) := by
            simp [runStmts, hf]
          rw [hrun]
          exact ⟨rfl, rfl⟩

theorem processUsefulBranch_preserves (db : DB)
    (conversationId userId : String) (a : ConversationAnalysis) (now : Int)
    (hc : ∀ r ∈ db.users, r.id = userId → r.consentGlobal = false) :
    (processUsefulBranch db conversationId userId a now).1.users = db.users ∧
      (processUsefulBranch db conversationId userId a now).1.globalInsights
        = db.globalInsights := by
  have hgood := goodStmt_all conversationId userId a now
  have hrun := runStmts_good userId _ hgood db hc
  simp only [processUsefulBranch]
  cases hr : runStmts db (storeConversationDataStmts conversationId userId a
      ++ [verdictStmt conversationId a, logStmt conversationId userId a now]) with
  | mk db1 err =>
      rw [hr] at hrun
      cases err with
      | none => exact hrun
      | some e => exact hrun

/-- C10: users created by the chat path get consentGlobal = false; the
embedded store operations never flip the consent of an existing row; only the
Gmail ingestion path inserts its dedicated user with consent on; and for a
user all of whose rows have consent off, the useful branch of the processor
leaves the global_insights table unchanged (the GlobalInsight upsert is
never executed). -/
theorem chatUsers_consentGlobal_false (db : DB) (userId conversationId : String)
    (a : ConversationAnalysis) (now : Int) :
    (db.users.find? (fun u => u.id == userId) = none →
        (getOrCreateUser db userId).2.users
            = db.users ++ [{ id := userId, consentGlobal := false }] ∧
          (getOrCreateUser db userId).1.consentGlobal = false) ∧
      (∀ r ∈ db.users, r ∈ (getOrCreateUser db userId).2.users) ∧
      (∀ r ∈ db.users, r ∈ (ensureGmailUser db).users) ∧
      (db.users.any (fun u => u.id == GMAIL_USER_ID) = false →
        (ensureGmailUser db).users
          = db.users ++ [{ id := GMAIL_USER_ID, consentGlobal := true }]) ∧
      ((∀ r ∈ db.users, r.id = userId → r.consentGlobal = false) →
        (processUsefulBranch db conversationId userId a now).1.users = db.users ∧
          (processUsefulBranch db conversationId userId a now).1.globalInsights
            = db.globalInsights) := by
  refine ⟨?_, ?_, ?_, ?_, ?_⟩
  · intro hnone
    simp [getOrCreateUser, hnone]
  · intro r hr
    unfold getOrCreateUser
    cases hf : db.users.find? (fun u => u.id == userId) with
    | some u0 => exact hr
    | none => exact List.mem_append_left _ hr
  · intro r hr
    unfold ensureGmailUser
    by_cases hg : db.users.any (fun u => u.id == GMAIL_USER_ID) = true
    · rw [if_pos hg]; exact hr
    · rw [if_neg hg]; exact List.mem_append_left _ hr
  · intro hnone
    simp [ensureGmailUser, hnone]
  · intro hc
    exact processUsefulBranch_preserves db conversationId userId a now hc

/-- Witness for C10: a fresh chat user is created with consent off, and the
processor run for that user adds no global insight. -/
theorem chatUsers_consentGlobal_false_witness :
    (getOrCreateUser emptyDB "u9").2.users
        = [{ id := "u9", consentGlobal := false }] ∧
      (processUsefulBranch procDemoDB "cp1" "u1" procDemoAnalysis 500).1.globalInsights
        = procDemoDB.globalInsights := by
  have h1 := (chatUsers_consentGlobal_false emptyDB "u9" "c" procDemoAnalysis 0).1
    (by decide)
  have h2 := (chatUsers_consentGlobal_false procDemoDB "u1" "cp1"
    procDemoAnalysis 500).2.2.2.2 (by decide)
  exact ⟨by simpa using h1.1, h2.2⟩

/-- C8 counterexample: chat and chatStream have no try/catch, so a network
failure is a raised failure that reaches the caller (the route maps it to a
500) instead of any neutral default. -/
theorem chat_propagates_network_failure :
    chat NetOutcome.failure = Except.error () ∧
      chatStream NetOutcome.failure = Except.error () := by
  exact ⟨rfl, rfl⟩

/-- C8 amended: classifyQuery, detectPII and analyzeConversation return
their neutral defaults on a network failure and on a parse failure of the
fence-stripped text; analyzeConversation truncates topics to 6 and
defaults isComplete to true; chat substitutes an apology only for an empty
completion and otherwise propagates failures (see the counterexample). -/
theorem llm_adapter_defaults :
    (∀ parse, classifyQuery parse NetOutcome.failure
        = { isTrivial := false, suggestedResponseLength := "medium" }) ∧
      (∀ parse t, parse (cleanFences (orEmptyJson t)) = none →
        classifyQuery parse (NetOutcome.ok t)
          = { isTrivial := false, suggestedResponseLength := "medium" }) ∧
      (∀ parse, detectPII parse NetOutcome.failure
        = { containsPII := false, piiTypes := [],
            explanation := "PII detection unavailable" }) ∧
      (∀ parse t, parse (cleanFences (orEmptyJson t)) = none →
        detectPII parse (NetOutcome.ok t)
          = { containsPII := false, piiTypes := [],
              explanation := "PII detection unavailable" }) ∧
      (∀ parse, analyzeConversation parse NetOutcome.failure = neutralAnalysis) ∧
      (∀ parse t, parse (cleanFences (orEmptyJson t)) = none →
        analyzeConversation parse (NetOutcome.ok t) = neutralAnalysis) ∧
      (∀ parse net, (analyzeConversation parse net).topics.length ≤ 6) ∧
      (∀ parse t r, parse (cleanFences (orEmptyJson t)) = some r →
        r.isComplete = none →
        (analyzeConversation parse (NetOutcome.ok t)).isComplete = true) ∧
      (∀ t, ¬(t = "") → chat (NetOutcome.ok t) = Except.ok t) ∧
      chat (NetOutcome.ok "")
        = Except.ok "I apologize, but I couldn\x27t generate a response." := by
  refine ⟨fun parse => rfl, ?_, fun parse => rfl, ?_, fun parse => rfl, ?_,
    ?_, ?_, ?_, ?_⟩
  · intro parse t h
    simp [classifyQuery, h]
  · intro parse t h
    simp [detectPII, h]
  · intro parse t h
    simp [analyzeConversation, h]
  · intro parse net
    cases net with
    | failure => simp [analyzeConversation, neutralAnalysis]
    | ok t =>
        cases hp : parse (cleanFences (orEmptyJson t)) with
        | none => simp [analyzeConversation, hp, neutralAnalysis]
        | some r =>
            simp only [analyzeConversation, hp, List.length_take]
            exact le_trans (min_le_left _ _) (by norm_num)
  · intro parse t r hp hc
    simp [analyzeConversation, hp, hc]
  · intro t ht
    have hb : (t == "") = false := by simpa using ht
    simp [chat, hb]
  · rfl

/-- Witness for C8 amended: a parser that rejects everything yields the
classifier default, and a non-empty completion passes through chat. -/
theorem llm_adapter_defaults_witness :
    classifyQuery (fun _ => none) (NetOutcome.ok "x")
        = { isTrivial := false, suggestedResponseLength := "medium" } ∧
      chat (NetOutcome.ok "hello") = Except.ok "hello" :=
  ⟨llm_adapter_defaults.2.1 (fun _ => none) "x" rfl,
    llm_adapter_defaults.2.2.2.2.2.2.2.2.1 "hello" (by decide)⟩

theorem find?_append_none {α : Type} (p : α → Bool) (l1 l2 : List α)
    (h : l1.find? p = none) : (l1 ++ l2).find? p = l2.find? p := by
  induction l1 with
  | nil => simp
  | cons x xs ih =>
      cases hx : p x with
      | true =>
          rw [List.find?_cons_of_pos _ hx] at h
          exact absurd h (by simp)
      | false =>
          have hx1 : ¬(p x = true) := by simp [hx]
          rw [List.find?_cons_of_neg _ hx1] at h
          rw [List.cons_append, List.find?_cons_of_neg _ hx1]
          exact ih h

theorem any_id_map_upd (topicId : String) (d : Option String)
    (ts : List TopicRow) (q : String) :
    (ts.map (fun t =>
        if t.id == topicId then { t with description := d } else t)).any
        (fun t => t.id == q)
      = ts.any (fun t => t.id == q) := by
  induction ts with
  | nil => rfl
  | cons x xs ih =>
      simp only [List.map_cons, List.any_cons, ih]
      by_cases hx : (x.id == topicId) = true <;> simp [hx]

theorem map_id_map_upd (topicId : String) (d : Option String)
    (ts : List TopicRow) :
    (ts.map (fun t =>
        if t.id == topicId then { t with description := d } else t)).map
        (fun t => t.id)
      = ts.map (fun t => t.id) := by
  induction ts with
  | nil => rfl
  | cons x xs ih =>
      simp only [List.map_cons, ih]
      by_cases hx : (x.id == topicId) = true <;> simp [hx]

/-- C9 counterexample: the topic upsert of the processor normalizes only the id
and stores the raw name, so (1) a stored name need not be normalized;
(2) the same concept created through getOrCreateTopic and then through the
processor yields two distinct rows; (3) when the raw names collide exactly,
the processor insert violates UNIQUE(name) instead of resolving to the
existing row. -/
theorem processorTopic_not_normalized :
    topicUpsert [] "Machine Learning" "s"
        = Except.ok [{ id := "topic_machine-learning", name := "Machine Learning",
                       description := some "s" }] ∧
      normalizeTopicName "Machine Learning" = "machine-learning" ∧
      ("Machine Learning" : String) ≠ "machine-learning" ∧
      (getOrCreateTopic emptyDB "machine learning").1
        = { id := "topic_0", name := "machine-learning", description := none } ∧
      topicUpsert
          [{ id := "topic_0", name := "machine-learning", description := none }]
          "machine learning" "s"
        = Except.ok
            [{ id := "topic_0", name := "machine-learning", description := none },
             { id := "topic_machine-learning", name := "machine learning",
               description := some "s" }] ∧
      topicUpsert [{ id := "topic_0", name := "tls", description := none }] "tls" "s"
        = Except.error "UNIQUE constraint failed: topics.name" := by
  refine ⟨rfl, by decide, by decide, by decide, rfl, rfl⟩

/-- C9 amended: within GraphService.getOrCreateTopic the invariant holds —
the name of the returned row is the normalized name, and a second creation
request whose name normalizes identically resolves to the same row and
leaves the store unchanged; the upsert of the processor is idempotent only on
its id key (a repeat of the same name rewrites no ids), but does not share
rows with the getOrCreateTopic path (see the counterexample). -/
theorem topicCreation_resolution (db : DB) (n m : String)
    (hnm : normalizeTopicName m = normalizeTopicName n) :
    ((getOrCreateTopic db n).1).name = normalizeTopicName n ∧
      getOrCreateTopic ((getOrCreateTopic db n).2) m = getOrCreateTopic db n ∧
      (∀ ts ts1 name s, topicUpsert ts name s = Except.ok ts1 →
        ∃ ts2, topicUpsert ts1 name s = Except.ok ts2 ∧
          ts2.map (fun t => t.id) = ts1.map (fun t => t.id)) := by
  refine ⟨?_, ?_, ?_⟩
  · cases hf : db.topics.find? (fun t => t.name == normalizeTopicName n) with
    | some t0 =>
        have h1 : getOrCreateTopic db n = (t0, db) := by
          simp [getOrCreateTopic, hf]
        rw [h1]
        have := List.find?_some hf
        simpa using this
    | none => simp [getOrCreateTopic, hf]
  · cases hf : db.topics.find? (fun t => t.name == normalizeTopicName n) with
    | some t0 =>
        have h1 : getOrCreateTopic db n = (t0, db) := by
          simp [getOrCreateTopic, hf]
        rw [h1]
        have h2 : db.topics.find? (fun t => t.name == normalizeTopicName m)
            = some t0 := by rw [hnm]; exact hf
        simp [getOrCreateTopic, h2]
    | none =>
        have h1 : getOrCreateTopic db n
            = ({ id := "topic_" ++ toString db.fresh,
                 name := normalizeTopicName n, description := none },
               { db with
                 topics := db.topics ++
                   [{ id := "topic_" ++ toString db.fresh,
                      name := normalizeTopicName n, description := none }],
                 fresh := db.fresh + 1 }) := by
          simp [getOrCreateTopic, hf]
        rw [h1]
        have hfn : db.topics.find? (fun t => t.name == normalizeTopicName m)
            = none := by rw [hnm]; exact hf
        have h2 : (db.topics ++
            [({ id := "topic_" ++ toString db.fresh,
                name := normalizeTopicName n, description := none } : TopicRow)]).find?
              (fun t => t.name == normalizeTopicName m)
            = some { id := "topic_" ++ toString db.fresh,
                     name := normalizeTopicName n, description := none } := by
          rw [find?_append_none _ _ _ hfn]
          exact List.find?_cons_of_pos _ (by simp [hnm])
        simp only [getOrCreateTopic]
        rw [h2]
  · intro ts ts1 name s h
    by_cases hid : ts.any (fun t => t.id == processorTopicId name) = true
    · rw [show topicUpsert ts name s = Except.ok (ts.map (fun t =>
          if t.id == processorTopicId name then { t with description := some s }
          else t)) by simp [topicUpsert, hid]] at h
      cases h
      refine ⟨(ts.map (fun t =>
          if t.id == processorTopicId name then { t with description := some s }
          else t)).map (fun t =>
          if t.id == processorTopicId name then { t with description := some s }
          else t), ?_, map_id_map_upd (processorTopicId name) (some s) _⟩
      have hid2 : ((ts.map (fun t =>
          if t.id == processorTopicId name then { t with description := some s }
          else t)).any (fun t => t.id == processorTopicId name)) = true := by
        rw [any_id_map_upd]
        exact hid
      simp only [topicUpsert]
      rw [hid2]
      simp
    · by_cases hname : ts.any (fun t => t.name == name) = true
      · rw [show topicUpsert ts name s
            = Except.error "UNIQUE constraint failed: topics.name" by
          simp [topicUpsert, hid, hname]] at h
        exact absurd h (by simp)
      · rw [show topicUpsert ts name s = Except.ok (ts ++
            [({ id := processorTopicId name, name := name,
                description := some s } : TopicRow)]) by
          simp [topicUpsert, hid, hname]] at h
        cases h
        have hany : ((ts ++
            [({ id := processorTopicId name, name := name,
                description := some s } : TopicRow)]).any
              (fun t => t.id == processorTopicId name)) = true := by
          simp
        refine ⟨(ts ++
            [({ id := processorTopicId name, name := name,
                description := some s } : TopicRow)]).map (fun t =>
            if t.id == processorTopicId name then { t with description := some s }
            else t), ?_, map_id_map_upd (processorTopicId name) (some s) _⟩
        simp only [topicUpsert]
        rw [hany]
        simp

/-- Witness for C9 amended: the two creation requests Machine Learning and
machine learning resolve to the same stored row through getOrCreateTopic. -/
theorem topicCreation_resolution_witness :
    ((getOrCreateTopic emptyDB "Machine Learning").1).name
        = normalizeTopicName "Machine Learning" ∧
      getOrCreateTopic ((getOrCreateTopic emptyDB "Machine Learning").2)
          "machine learning"
        = getOrCreateTopic emptyDB "Machine Learning" := by
  have h := topicCreation_resolution emptyDB "Machine Learning"
    "machine learning" (by decide)
  exact ⟨h.1, h.2.1⟩

end KGraph
